import Mathlib

/-!
Verification of the Kafka secure-channel controller
(`ockam_api/src/kafka/secure_channel_map.rs`).

The controller state (`InnerSecureChannelControllerImpl`) is protected by a
single mutex that is held across each whole operation body (including the
channel-creation slow path), so every operation is embedded as an atomic
function from state to state.  External collaborators (the secure-channel
subsystem, the registry, the forwarder creator, the message bus, the random
number generator) are modelled as an oracle `Env` of pure functions, and each
operation additionally reports the list of external calls it performed as a
list of `Event`s.

HashMaps/HashSets are embedded as association lists with first-match lookup;
the code only ever inserts into `topic_encryptor_map` after a failed lookup
and into `topic_forwarder_set` after a failed membership test, so the
shadowing cons used here coincides with the map semantics on all states the
operations produce.
-/

namespace Kafka

/-- Local transport address (opaque string, as in `ockam_core::Address`). -/
abbrev Address := String

/-- Rust `pub(crate) type UniqueSecureChannelId = u64;` — used purely as a key. -/
abbrev UniqueSecureChannelId := Nat

/-- Rust `type TopicPartition = (String, i32);` — the partition is used purely as
a key and is printed in decimal, so it is embedded as `Int`. -/
abbrev TopicPartition := String × Int

/-- A route is a sequence of hop addresses (`ockam_core::Route`). -/
abbrev Route := List String

/-- Errors observable from the controller.  The three named constructors are
the errors the controller itself constructs (`Error::new(Origin::Channel,
Kind::Unknown, msg)` with the three message strings in the source); errors
coming back from a collaborator are `external`. -/
inductive Err where
  /-- Means "secure channel down". -/
  | channelDown : Err
  /-- Means "missing secure channel". -/
  | missingSecureChannel : Err
  /-- Means "secure channel no longer exists". -/
  | secureChannelGone : Err
  /-- an error produced by an external collaborator and propagated by `?` -/
  | external (msg : String) : Err
deriving DecidableEq, Repr

/-- Embeds `ockam_identity::SecureChannelRegistryEntry`, restricted to the fields the
controller reads. -/
structure SecureChannelRegistryEntry where
  encryptor_messaging_address : Address
  encryptor_api_address : Address
  decryptor_api_address : Address
  is_initiator : Bool
deriving DecidableEq, Repr

/-- Embeds `EncryptionResponse::Ok(Vec<u8>) | EncryptionResponse::Err(Error)`. -/
inductive EncryptionResponse where
  | ok (content : List Nat) : EncryptionResponse
  | err (cause : Err) : EncryptionResponse
deriving DecidableEq, Repr

/-- Embeds `DecryptionResponse::Ok(Vec<u8>) | DecryptionResponse::Err(Error)`. -/
inductive DecryptionResponse where
  | ok (content : List Nat) : DecryptionResponse
  | err (cause : Err) : DecryptionResponse
deriving DecidableEq, Repr

/-- The external world as seen by one controller operation: the cryptographic
channel subsystem (`Identity`), its registry, the message bus, the forwarder
creator, and the random generator.  Each field is the outcome the environment
gives to the corresponding external call. -/
structure Env where
  /-- Outcome of `identity.create_secure_channel(route, TrustEveryonePolicy)`. -/
  create_secure_channel : Route → Except Err Address
  /-- Outcome of `context.send_and_receive(route![encryptor_address, CONTROLLER_ADDRESS], msg)`:
  the blocking handshake acknowledgement of step 6 -/
  handshake_ack : Address → Except Err Unit
  /-- Outcome of `secure_channel_registry().get_channel_by_encryptor_address(addr)`. -/
  get_channel_by_encryptor_address : Address → Option SecureChannelRegistryEntry
  /-- Outcome of `secure_channel_registry().get_channel_list()`. -/
  get_channel_list : List SecureChannelRegistryEntry
  /-- Outcome of `send_and_receive(route![encryptor_api_address], EncryptionRequest(content))`;
  the outer `Except` is a transport failure of `send_and_receive` itself -/
  encryption_request : Address → List Nat → Except Err EncryptionResponse
  /-- Outcome of `send_and_receive(route![decryptor_api_address], DecryptionRequest(content))`. -/
  decryption_request : Address → List Nat → Except Err DecryptionResponse
  /-- Outcome of `forwarder_creator.create_forwarder(context, alias)`. -/
  create_forwarder : String → Except Err Unit
  /-- Outcome of `rand::random()` at step 4 of the creation algorithm. -/
  fresh_id : UniqueSecureChannelId

/-- Modelled from the spec: `KAFKA_SECURE_CHANNEL_LISTENER_ADDRESS` is defined
in `kafka/mod.rs`, which is not part of the sources; it is the well-known
address of the remote secure-channel listener, an opaque constant. -/
def KAFKA_SECURE_CHANNEL_LISTENER_ADDRESS : Address :=
  "kafka_secure_channel_listener"

/-- Modelled from the spec: `KAFKA_SECURE_CHANNEL_CONTROLLER_ADDRESS` is
defined in `kafka/mod.rs`, which is not part of the sources; it is the
well-known address of the session-handshake listener, an opaque constant. -/
def KAFKA_SECURE_CHANNEL_CONTROLLER_ADDRESS : Address :=
  "kafka_secure_channel_controller"

/-- Embeds `struct InnerSecureChannelControllerImpl`: the four fields guarded by the
single controller lock (the `identity` and `forwarder_creator` collaborators
live in `Env`). -/
structure InnerSecureChannelControllerImpl where
  id_encryptor_map : List (UniqueSecureChannelId × Address)
  topic_encryptor_map : List (TopicPartition × (UniqueSecureChannelId × Address))
  topic_forwarder_set : List TopicPartition
  project_route : Route
deriving DecidableEq, Repr

abbrev Inner := InnerSecureChannelControllerImpl

/-- First-match association-list lookup (the embedding of `HashMap::get`). -/
def alookup {α β : Type} [DecidableEq α] (k : α) : List (α × β) → Option β
  | [] => none
  | (k', v) :: rest => if k' = k then some v else alookup k rest

/-- External calls an operation performs, the observation used to state the
"no network activity" and "exactly one CreateChannel" claims. -/
inductive Event where
  /-- Records that `create_secure_channel` was requested on this route. -/
  | create_channel (r : Route) : Event
  /-- the handshake announcement was sent through this encryptor address -/
  | handshake (addr : Address) : Event
  /-- an `EncryptionRequest` was sent to this api address -/
  | encryption (addr : Address) : Event
  /-- a `DecryptionRequest` was sent to this api address -/
  | decryption (addr : Address) : Event
  /-- Records that `create_forwarder` was called for this key with this alias. -/
  | forwarder (key : TopicPartition) (fwd_alias : String) : Event
  /-- Records that `stop_secure_channel` was called on this encryptor address. -/
  | stop_channel (addr : Address) : Event
deriving DecidableEq, Repr

/-- Embeds `format!("consumer__{topic_name}_{partition}")` (the `consumer__` part of
the rendezvous name is added here; the orchestrator-side alias omits it). -/
def topic_partition_address (topic_name : String) (partition : Int) : Address :=
  "consumer__" ++ topic_name ++ "_" ++ toString partition

/-- Embeds `route![project_route, topic_partition_address, LISTENER_ADDRESS]`: the
route on which the new secure channel is requested. -/
def creation_route (s : Inner) (topic_name : String) (partition : Int) : Route :=
  s.project_route ++
    [topic_partition_address topic_name partition,
     KAFKA_SECURE_CHANNEL_LISTENER_ADDRESS]

/-- Embeds `KafkaSecureChannelControllerImpl::get_or_create_secure_channel_for`.
The whole body runs under the controller lock, so it is one atomic step:
1. cache hit returns the stored pair;
2. otherwise `create_secure_channel` (propagating failure with the state
   unchanged), insert the fresh id into `topic_encryptor_map`, then send the
   handshake and block for the ack (propagating failure, the entry staying
   inserted);
3. finally look the encryptor address up in the registry, failing with
   "secure channel down" when it is gone. -/
def get_or_create_secure_channel_for (env : Env) (s : Inner)
    (topic_name : String) (partition : Int) :
    Except Err (UniqueSecureChannelId × SecureChannelRegistryEntry) × Inner × List Event :=
  let topic_partition_key : TopicPartition := (topic_name, partition)
  match alookup topic_partition_key s.topic_encryptor_map with
  | some (random_unique_id, encryptor_address) =>
      match env.get_channel_by_encryptor_address encryptor_address with
      | some entry => (.ok (random_unique_id, entry), s, [])
      | none => (.error .channelDown, s, [])
  | none =>
      let r := creation_route s topic_name partition
      match env.create_secure_channel r with
      | .error e => (.error e, s, [.create_channel r])
      | .ok encryptor_address =>
          let random_unique_id := env.fresh_id
          let s1 : Inner :=
            { s with topic_encryptor_map :=
                (topic_partition_key, (random_unique_id, encryptor_address))
                  :: s.topic_encryptor_map }
          let evs := [Event.create_channel r, Event.handshake encryptor_address]
          match env.handshake_ack encryptor_address with
          | .error e => (.error e, s1, evs)
          | .ok _ =>
              match env.get_channel_by_encryptor_address encryptor_address with
              | some entry => (.ok (random_unique_id, entry), s1, evs)
              | none => (.error .channelDown, s1, evs)

/-- Embeds `KafkaSecureChannelControllerImpl::get_secure_channel_for`: decrypt-side
lookup.  Unknown id → "missing secure channel"; known id whose address has no
live non-initiator registry entry → "secure channel no longer exists". -/
def get_secure_channel_for (env : Env) (s : Inner)
    (secure_channel_id : UniqueSecureChannelId) :
    Except Err SecureChannelRegistryEntry :=
  match alookup secure_channel_id s.id_encryptor_map with
  | some encryptor_address =>
      match env.get_channel_list.find?
          (fun entry =>
            entry.encryptor_messaging_address == encryptor_address
              && !entry.is_initiator) with
      | some entry => .ok entry
      | none => .error .secureChannelGone
  | none => .error .missingSecureChannel

/-- Embeds `KafkaEncryptedContent`. -/
structure KafkaEncryptedContent where
  content : List Nat
  secure_channel_id : UniqueSecureChannelId
deriving DecidableEq, Repr

/-- Embeds `KafkaSecureChannelController::encrypt_content_for`. -/
def encrypt_content_for (env : Env) (s : Inner)
    (topic_name : String) (partition_id : Int) (content : List Nat) :
    Except Err KafkaEncryptedContent × Inner × List Event :=
  match get_or_create_secure_channel_for env s topic_name partition_id with
  | (.error e, s', evs) => (.error e, s', evs)
  | (.ok (unique_id, entry), s', evs) =>
      let evs := evs ++ [Event.encryption entry.encryptor_api_address]
      match env.encryption_request entry.encryptor_api_address content with
      | .error e => (.error e, s', evs)
      | .ok (.ok encrypted) => (.ok ⟨encrypted, unique_id⟩, s', evs)
      | .ok (.err cause) => (.error cause, s', evs)

/-- Embeds `KafkaSecureChannelController::decrypt_content_for`. -/
def decrypt_content_for (env : Env) (s : Inner)
    (secure_channel_id : UniqueSecureChannelId) (encrypted_content : List Nat) :
    Except Err (List Nat) × Inner × List Event :=
  match get_secure_channel_for env s secure_channel_id with
  | .error e => (.error e, s, [])
  | .ok entry =>
      let evs := [Event.decryption entry.decryptor_api_address]
      match env.decryption_request entry.decryptor_api_address encrypted_content with
      | .error e => (.error e, s, evs)
      | .ok (.ok decrypted) => (.ok decrypted, s, evs)
      | .ok (.err cause) => (.error cause, s, evs)

/-- Embeds `format!("{topic_name}_{partition}")`: the forwarder alias. -/
def forwarder_alias (topic_name : String) (partition : Int) : String :=
  topic_name ++ "_" ++ toString partition

/-- Embeds `KafkaSecureChannelController::start_forwarders_for`: for each partition,
skip it when already in `topic_forwarder_set`, otherwise call
`create_forwarder` (propagating failure, which aborts the remaining
partitions) and only then record the key. -/
def start_forwarders_for (env : Env) (s : Inner) (topic_name : String) :
    List Int → Except Err Unit × Inner × List Event
  | [] => (.ok (), s, [])
  | partition :: rest =>
      let topic_key : TopicPartition := (topic_name, partition)
      if topic_key ∈ s.topic_forwarder_set then
        start_forwarders_for env s topic_name rest
      else
        let fwd_alias := forwarder_alias topic_name partition
        match env.create_forwarder fwd_alias with
        | .error e => (.error e, s, [.forwarder topic_key fwd_alias])
        | .ok _ =>
            let s' : Inner :=
              { s with topic_forwarder_set := topic_key :: s.topic_forwarder_set }
            match start_forwarders_for env s' topic_name rest with
            | (r, s'', evs) => (r, s'', .forwarder topic_key fwd_alias :: evs)

/-- Embeds `KafkaSecureChannelControllerImpl::add_mapping`: the body of the session
handshake listener's `handle_message`, recording
`id_encryptor_map[id] = encryptor_address` under the lock. -/
def add_mapping (s : Inner) (id : UniqueSecureChannelId)
    (encryptor_address : Address) : Inner :=
  { s with id_encryptor_map := (id, encryptor_address) :: s.id_encryptor_map }

/-- The forwarder re-registration loop inside `change_route`: one
`create_forwarder` per element of `topic_forwarder_set`, with `?` on each
call (a failure aborts the loop and propagates). -/
def change_route_forwarders (env : Env) :
    List TopicPartition → Except Err Unit × List Event
  | [] => (.ok (), [])
  | topic_key :: rest =>
      let fwd_alias := forwarder_alias topic_key.1 topic_key.2
      match env.create_forwarder fwd_alias with
      | .error e => (.error e, [.forwarder topic_key fwd_alias])
      | .ok _ =>
          match change_route_forwarders env rest with
          | (r, evs) => (r, .forwarder topic_key fwd_alias :: evs)

/-- The pre-creation phase of `change_route`: the `join_all` of the
`get_or_create_secure_channel_for` futures collected for every key that was
cached before the change.  Each future re-acquires the lock, so they
serialize; each outcome is only logged (`warn!`) and otherwise ignored. -/
def change_route_recreate (env : Env) (s : Inner) :
    List TopicPartition → Inner × List Event
  | [] => (s, [])
  | topic_key :: rest =>
      match get_or_create_secure_channel_for env s topic_key.1 topic_key.2 with
      | (_, s', evs) =>
          match change_route_recreate env s' rest with
          | (s'', evs') => (s'', evs ++ evs')

/-- The phase of `change_route` executed while the lock is held: store the
new route, stop every cached encrypting channel (failures only logged),
clear `topic_encryptor_map`, and re-register every forwarder (a failure here
propagates by `?`).  Also returns the keys whose channels are to be
pre-created after the lock is dropped. -/
def change_route_locked (env : Env) (s : Inner) (new_route : Route) :
    Except Err Unit × Inner × List Event × List TopicPartition :=
  let stop_events := s.topic_encryptor_map.map (fun kv => Event.stop_channel kv.2.2)
  let keys := s.topic_encryptor_map.map (·.1)
  let s2 : Inner := { s with project_route := new_route, topic_encryptor_map := [] }
  match change_route_forwarders env s2.topic_forwarder_set with
  | (.error e, fevs) => (.error e, s2, stop_events ++ fevs, keys)
  | (.ok _, fevs) => (.ok (), s2, stop_events ++ fevs, keys)

/-- Embeds `KafkaSecureChannelController::change_route`: the locked phase followed,
when the locked phase succeeded, by dropping the lock and awaiting the
pre-creation futures (whose failures are swallowed). -/
def change_route (env : Env) (s : Inner) (new_route : Route) :
    Except Err Unit × Inner × List Event :=
  match change_route_locked env s new_route with
  | (.error e, s2, evs, _) => (.error e, s2, evs)
  | (.ok _, s2, evs, keys) =>
      match change_route_recreate env s2 keys with
      | (s3, evs') => (.ok (), s3, evs ++ evs')

/-- One public operation of the controller (including the handshake
listener's `add_mapping`), used to define reachability. -/
inductive Op where
  | opEncrypt (env : Env) (topic_name : String) (partition : Int)
      (content : List Nat) : Op
  | opDecrypt (env : Env) (id : UniqueSecureChannelId) (content : List Nat) : Op
  | opStartForwarders (env : Env) (topic_name : String)
      (partitions : List Int) : Op
  | opChangeRoute (env : Env) (new_route : Route) : Op
  | opAddMapping (id : UniqueSecureChannelId) (encryptor_address : Address) : Op

/-- The state transformation of one operation. -/
def step (s : Inner) : Op → Inner
  | .opEncrypt env t p c => (encrypt_content_for env s t p c).2.1
  | .opDecrypt env id c => (decrypt_content_for env s id c).2.1
  | .opStartForwarders env t ps => (start_forwarders_for env s t ps).2.1
  | .opChangeRoute env r => (change_route env s r).2.1
  | .opAddMapping id addr => add_mapping s id addr

/-- Run a sequence of operations. -/
def run (s : Inner) : List Op → Inner
  | [] => s
  | op :: rest => run (step s op) rest

/-- The freshly constructed controller (`new_extended`): all maps empty. -/
def initial_state (project_route : Route) : Inner :=
  { id_encryptor_map := [], topic_encryptor_map := [],
    topic_forwarder_set := [], project_route := project_route }

/-- A controller state reachable from construction by some sequence of
operations. -/
def Reachable (s : Inner) : Prop :=
  ∃ r ops, run (initial_state r) ops = s

/-- Number of `create_channel` events (CreateChannel requests) in a trace. -/
def countCreate (evs : List Event) : Nat :=
  (evs.filter fun e =>
    match e with | .create_channel _ => true | _ => false).length

/-- Number of handshake announcements in a trace. -/
def countHandshake (evs : List Event) : Nat :=
  (evs.filter fun e =>
    match e with | .handshake _ => true | _ => false).length

/-- Number of `create_forwarder` calls for a given topic-partition key in a
trace. -/
def countForwarder (evs : List Event) (k : TopicPartition) : Nat :=
  (evs.filter fun e =>
    match e with | .forwarder k' _ => decide (k' = k) | _ => false).length

/-- A sequence of `encrypt_content_for` calls for one key, each call with its
own environment (the serialization order the controller lock imposes on
concurrent callers). -/
def run_encrypt_seq (s : Inner) (topic_name : String) (partition : Int)
    (content : List Nat) : List Env → Inner × List Event
  | [] => (s, [])
  | env :: rest =>
      match encrypt_content_for env s topic_name partition content with
      | (_, s', evs) =>
          match run_encrypt_seq s' topic_name partition content rest with
          | (s'', evs') => (s'', evs ++ evs')

/-! ### Basic lemmas about the creation path -/

theorem alookup_cons_self {α β : Type} [DecidableEq α] (k : α) (v : β)
    (l : List (α × β)) : alookup k ((k, v) :: l) = some v := by
  simp [alookup]

theorem alookup_cons_ne {α β : Type} [DecidableEq α] {k k' : α} (v : β)
    (l : List (α × β)) (h : k' ≠ k) :
    alookup k ((k', v) :: l) = alookup k l := by
  simp [alookup, h]

theorem getOrCreate_id_map_eq (env : Env) (s : Inner) (t : String) (p : Int) :
    ((get_or_create_secure_channel_for env s t p).2.1).id_encryptor_map
      = s.id_encryptor_map := by
  simp only [get_or_create_secure_channel_for]
  repeat' split
  all_goals rfl

theorem getOrCreate_forwarder_set_eq (env : Env) (s : Inner) (t : String) (p : Int) :
    ((get_or_create_secure_channel_for env s t p).2.1).topic_forwarder_set
      = s.topic_forwarder_set := by
  simp only [get_or_create_secure_channel_for]
  repeat' split
  all_goals rfl

theorem getOrCreate_route_eq (env : Env) (s : Inner) (t : String) (p : Int) :
    ((get_or_create_secure_channel_for env s t p).2.1).project_route
      = s.project_route := by
  simp only [get_or_create_secure_channel_for]
  repeat' split
  all_goals rfl

/-- Cache hit: the state is untouched and no external call happens; the
result is the cached id paired with the registry entry, or "secure channel
down" when the registry lost the address. -/
theorem getOrCreate_cache_hit (env : Env) (s : Inner) (t : String) (p : Int)
    (sid : UniqueSecureChannelId) (addr : Address)
    (h : alookup (t, p) s.topic_encryptor_map = some (sid, addr)) :
    get_or_create_secure_channel_for env s t p =
      ((match env.get_channel_by_encryptor_address addr with
        | some entry => .ok (sid, entry)
        | none => .error .channelDown), s, []) := by
  simp only [get_or_create_secure_channel_for, h]
  split <;> rfl

/-- Step-3 failure: the `CreateChannel` error propagates, the state is
unchanged, and the only external call is the create attempt. -/
theorem getOrCreate_create_fail (env : Env) (s : Inner) (t : String) (p : Int)
    (e : Err)
    (hmiss : alookup (t, p) s.topic_encryptor_map = none)
    (hfail : env.create_secure_channel (creation_route s t p) = .error e) :
    get_or_create_secure_channel_for env s t p =
      (.error e, s, [.create_channel (creation_route s t p)]) := by
  simp only [get_or_create_secure_channel_for, hmiss, hfail]

/-- After a successful `CreateChannel`, the key is cached (with the fresh id
and the returned address) no matter how the handshake and the registry lookup
turn out, and exactly one `CreateChannel` call happened. -/
theorem getOrCreate_create_ok (env : Env) (s : Inner) (t : String) (p : Int)
    (a : Address)
    (hmiss : alookup (t, p) s.topic_encryptor_map = none)
    (hok : env.create_secure_channel (creation_route s t p) = .ok a) :
    alookup (t, p)
        ((get_or_create_secure_channel_for env s t p).2.1).topic_encryptor_map
      = some (env.fresh_id, a) ∧
    countCreate (get_or_create_secure_channel_for env s t p).2.2 = 1 := by
  simp only [get_or_create_secure_channel_for, hmiss, hok]
  constructor
  · split
    · exact alookup_cons_self _ _ _
    · split <;> exact alookup_cons_self _ _ _
  · split
    · rfl
    · split <;> rfl

/-- Step-6 failure: the handshake error propagates but the entry inserted at
step 5 stays in `topic_encryptor_map`. -/
theorem getOrCreate_handshake_fail (env : Env) (s : Inner) (t : String)
    (p : Int) (a : Address) (e : Err)
    (hmiss : alookup (t, p) s.topic_encryptor_map = none)
    (hok : env.create_secure_channel (creation_route s t p) = .ok a)
    (hhs : env.handshake_ack a = .error e) :
    get_or_create_secure_channel_for env s t p =
      (.error e,
       { s with topic_encryptor_map :=
           ((t, p), (env.fresh_id, a)) :: s.topic_encryptor_map },
       [.create_channel (creation_route s t p), .handshake a]) := by
  simp only [get_or_create_secure_channel_for, hmiss, hok, hhs]

/-! ### Lemmas about `encrypt_content_for` -/

theorem countCreate_append (a b : List Event) :
    countCreate (a ++ b) = countCreate a + countCreate b := by
  simp [countCreate, List.filter_append]

theorem countHandshake_append (a b : List Event) :
    countHandshake (a ++ b) = countHandshake a + countHandshake b := by
  simp [countHandshake, List.filter_append]

theorem countForwarder_append (a b : List Event) (k : TopicPartition) :
    countForwarder (a ++ b) k = countForwarder a k + countForwarder b k := by
  simp [countForwarder, List.filter_append]

/-- The state after `encrypt_content_for` is the state after its
`get_or_create_secure_channel_for` step: the encryption request itself never
touches the maps. -/
theorem encrypt_state_eq (env : Env) (s : Inner) (t : String) (p : Int)
    (c : List Nat) :
    (encrypt_content_for env s t p c).2.1
      = (get_or_create_secure_channel_for env s t p).2.1 := by
  unfold encrypt_content_for
  repeat' split
  all_goals simp_all

/-- The call `encrypt_content_for` performs exactly the `CreateChannel` calls its
creation step performs. -/
theorem encrypt_countCreate_eq (env : Env) (s : Inner) (t : String) (p : Int)
    (c : List Nat) :
    countCreate (encrypt_content_for env s t p c).2.2
      = countCreate (get_or_create_secure_channel_for env s t p).2.2 := by
  unfold encrypt_content_for
  repeat' split
  all_goals simp_all [countCreate_append, countCreate]

/-- The call `encrypt_content_for` performs exactly the handshakes its creation step
performs. -/
theorem encrypt_countHandshake_eq (env : Env) (s : Inner) (t : String)
    (p : Int) (c : List Nat) :
    countHandshake (encrypt_content_for env s t p c).2.2
      = countHandshake (get_or_create_secure_channel_for env s t p).2.2 := by
  unfold encrypt_content_for
  repeat' split
  all_goals simp_all [countHandshake_append, countHandshake]

/-- A successful `encrypt_content_for` returns the session id its creation
step returned. -/
theorem encrypt_ok_sid (env : Env) (s : Inner) (t : String) (p : Int)
    (c : List Nat) (kec : KafkaEncryptedContent)
    (h : (encrypt_content_for env s t p c).1 = .ok kec) :
    ∃ entry, (get_or_create_secure_channel_for env s t p).1
      = .ok (kec.secure_channel_id, entry) := by
  unfold encrypt_content_for at h
  revert h
  split
  · intro h; simp at h
  · rename_i uid entry s' evs hg
    dsimp only
    split
    · intro h; simp at h
    · intro h
      injection h with h2
      subst h2
      exact ⟨entry, by rw [hg]⟩
    · intro h; simp at h

/-- Cache hit through `encrypt_content_for`: the controller state is exactly
unchanged. -/
theorem encrypt_cache_hit_state (env : Env) (s : Inner) (t : String) (p : Int)
    (c : List Nat) (sid : UniqueSecureChannelId) (addr : Address)
    (h : alookup (t, p) s.topic_encryptor_map = some (sid, addr)) :
    (encrypt_content_for env s t p c).2.1 = s := by
  rw [encrypt_state_eq, getOrCreate_cache_hit env s t p sid addr h]

/-- Cache hit through `encrypt_content_for`: no `CreateChannel` call and no
handshake. -/
theorem encrypt_cache_hit_counts (env : Env) (s : Inner) (t : String)
    (p : Int) (c : List Nat) (sid : UniqueSecureChannelId) (addr : Address)
    (h : alookup (t, p) s.topic_encryptor_map = some (sid, addr)) :
    countCreate (encrypt_content_for env s t p c).2.2 = 0 ∧
    countHandshake (encrypt_content_for env s t p c).2.2 = 0 := by
  rw [encrypt_countCreate_eq, encrypt_countHandshake_eq,
    getOrCreate_cache_hit env s t p sid addr h]
  exact ⟨rfl, rfl⟩

/-- A whole serialized sequence of `encrypt_content_for` calls starting from
a state whose key is cached leaves the state unchanged and performs no
`CreateChannel` call. -/
theorem run_encrypt_seq_cached (s : Inner) (t : String) (p : Int)
    (c : List Nat) (sid : UniqueSecureChannelId) (addr : Address)
    (h : alookup (t, p) s.topic_encryptor_map = some (sid, addr)) :
    ∀ envs : List Env,
      (run_encrypt_seq s t p c envs).1 = s ∧
      countCreate (run_encrypt_seq s t p c envs).2 = 0 := by
  intro envs
  induction envs with
  | nil => exact ⟨rfl, rfl⟩
  | cons env rest ih =>
      unfold run_encrypt_seq
      have hs := encrypt_cache_hit_state env s t p c sid addr h
      have hc := (encrypt_cache_hit_counts env s t p c sid addr h).1
      rcases henc : encrypt_content_for env s t p c with ⟨r, s', evs⟩
      rw [henc] at hs hc
      dsimp only at hs hc ⊢
      rcases hrun : run_encrypt_seq s' t p c rest with ⟨s'', evs'⟩
      subst hs
      rw [hrun] at ih
      refine ⟨ih.1, ?_⟩
      rw [countCreate_append, hc]
      simpa using ih.2

/-! ### Concrete environments and states used for witnesses and
counterexamples -/

/-- A live responder-side registry entry at address `enc_msg_A`. -/
def entryA : SecureChannelRegistryEntry :=
  { encryptor_messaging_address := "enc_msg_A"
    encryptor_api_address := "enc_api_A"
    decryptor_api_address := "dec_api_A"
    is_initiator := false }

/-- An environment where every external call succeeds and the registry knows
the single channel at `enc_msg_A`. -/
def env_ok : Env :=
  { create_secure_channel := fun _ => .ok "enc_msg_A"
    handshake_ack := fun _ => .ok ()
    get_channel_by_encryptor_address := fun a =>
      if a = "enc_msg_A" then some entryA else none
    get_channel_list := [entryA]
    encryption_request := fun _ c => .ok (.ok (0 :: c))
    decryption_request := fun _ c => .ok (.ok c)
    create_forwarder := fun _ => .ok ()
    fresh_id := 42 }

/-- Like `env_ok` but `CreateChannel` fails. -/
def env_create_fails : Env :=
  { env_ok with create_secure_channel := fun _ => .error (.external "create failed") }

/-- Like `env_ok` but the handshake acknowledgement fails. -/
def env_hs_fails : Env :=
  { env_ok with handshake_ack := fun _ => .error (.external "handshake failed") }

/-- Like `env_ok` but the registry has forgotten every channel. -/
def env_registry_empty : Env :=
  { env_ok with
    get_channel_by_encryptor_address := fun _ => none
    get_channel_list := [] }

/-- Like `env_ok` but forwarder registration fails. -/
def env_forwarder_fails : Env :=
  { env_ok with create_forwarder := fun _ => .error (.external "forwarder failed") }

/-- A controller state whose topic map caches `("orders", 3)`. -/
def s_cached : Inner :=
  { id_encryptor_map := []
    topic_encryptor_map := [(("orders", 3), (42, "enc_msg_A"))]
    topic_forwarder_set := []
    project_route := ["proj"] }

/-! ### C2 -/

/-- C2: concurrent `encrypt_content_for` calls for the same topic-partition
key are serialized by the single controller lock (each call is one atomic
step here), and any such serialized sequence performs exactly one underlying
`CreateChannel` call: once the first call's creation succeeds, every later
call is a cache hit, whatever the outcomes of its handshake, registry lookup
or encryption request. -/
theorem C2_at_most_once_creation (t : String) (p : Int) (c : List Nat)
    (env : Env) (envs : List Env) (s : Inner) (a : Address)
    (hmiss : alookup (t, p) s.topic_encryptor_map = none)
    (hok : env.create_secure_channel (creation_route s t p) = .ok a) :
    countCreate (run_encrypt_seq s t p c (env :: envs)).2 = 1 := by
  have h1 := getOrCreate_create_ok env s t p a hmiss hok
  have hst := encrypt_state_eq env s t p c
  have hcc := encrypt_countCreate_eq env s t p c
  unfold run_encrypt_seq
  rcases henc : encrypt_content_for env s t p c with ⟨r, s1, evs1⟩
  rw [henc] at hst hcc
  dsimp only at hst hcc ⊢
  have hkey : alookup (t, p) s1.topic_encryptor_map = some (env.fresh_id, a) := by
    rw [hst]; exact h1.1
  have hcnt : countCreate evs1 = 1 := by rw [hcc]; exact h1.2
  have hrest := run_encrypt_seq_cached s1 t p c env.fresh_id a hkey envs
  rcases hrun : run_encrypt_seq s1 t p c envs with ⟨s2, evs2⟩
  rw [hrun] at hrest
  dsimp only
  rw [countCreate_append, hcnt]
  simpa using hrest.2

/-- Witness for C2: three serialized calls for `("orders", 3)` against an
all-success environment perform exactly one `CreateChannel`. -/
theorem C2_witness :
    alookup (("orders" : String), (3 : Int))
        (initial_state ["proj"]).topic_encryptor_map = none ∧
    env_ok.create_secure_channel
        (creation_route (initial_state ["proj"]) "orders" 3)
      = .ok "enc_msg_A" ∧
    countCreate
        (run_encrypt_seq (initial_state ["proj"]) "orders" 3 [104]
          [env_ok, env_ok, env_ok]).2 = 1 :=
  ⟨rfl, rfl,
   C2_at_most_once_creation "orders" 3 [104] env_ok [env_ok, env_ok]
     (initial_state ["proj"]) "enc_msg_A" rfl rfl⟩

/-! ### C4 -/

/-- C4: for an uncached key, a step-3 `CreateChannel` failure propagates the
error and leaves the whole state (in particular `topic_encryptor_map`)
unchanged, while a step-6 handshake failure propagates the error but leaves
the entry inserted at step 5 in `topic_encryptor_map`. -/
theorem C4_creation_failure_semantics (env : Env) (s : Inner) (t : String)
    (p : Int)
    (hmiss : alookup (t, p) s.topic_encryptor_map = none) :
    (∀ e, env.create_secure_channel (creation_route s t p) = .error e →
      get_or_create_secure_channel_for env s t p
        = (.error e, s, [.create_channel (creation_route s t p)])) ∧
    (∀ a e, env.create_secure_channel (creation_route s t p) = .ok a →
      env.handshake_ack a = .error e →
      get_or_create_secure_channel_for env s t p
        = (.error e,
           { s with topic_encryptor_map :=
               ((t, p), (env.fresh_id, a)) :: s.topic_encryptor_map },
           [.create_channel (creation_route s t p), .handshake a])) :=
  ⟨fun e hf => getOrCreate_create_fail env s t p e hmiss hf,
   fun a e hok hhs => getOrCreate_handshake_fail env s t p a e hmiss hok hhs⟩

/-- Witness for C4: both failure modes at the concrete key `("orders", 3)`
from the fresh controller. -/
theorem C4_witness :
    get_or_create_secure_channel_for env_create_fails (initial_state ["proj"])
        "orders" 3
      = (.error (.external "create failed"), initial_state ["proj"],
         [.create_channel (creation_route (initial_state ["proj"]) "orders" 3)]) ∧
    get_or_create_secure_channel_for env_hs_fails (initial_state ["proj"])
        "orders" 3
      = (.error (.external "handshake failed"),
         { initial_state ["proj"] with topic_encryptor_map :=
             [(("orders", 3), (42, "enc_msg_A"))] },
         [.create_channel (creation_route (initial_state ["proj"]) "orders" 3),
          .handshake "enc_msg_A"]) :=
  ⟨(C4_creation_failure_semantics env_create_fails (initial_state ["proj"])
      "orders" 3 rfl).1 _ rfl,
   (C4_creation_failure_semantics env_hs_fails (initial_state ["proj"])
      "orders" 3 rfl).2 _ _ rfl rfl⟩

/-! ### C5 -/

/-- C5: for a key already cached in `topic_encryptor_map`,
`encrypt_content_for` performs no `CreateChannel` call and no handshake, and
whenever it succeeds it returns the cached `SessionId` — which by
`getOrCreate_create_ok` is the id stored by the call that created the
entry. -/
theorem C5_cache_hit_reuses_session (env : Env) (s : Inner) (t : String)
    (p : Int) (c : List Nat) (sid : UniqueSecureChannelId) (addr : Address)
    (h : alookup (t, p) s.topic_encryptor_map = some (sid, addr)) :
    countCreate (encrypt_content_for env s t p c).2.2 = 0 ∧
    countHandshake (encrypt_content_for env s t p c).2.2 = 0 ∧
    ∀ kec, (encrypt_content_for env s t p c).1 = .ok kec →
      kec.secure_channel_id = sid := by
  refine ⟨(encrypt_cache_hit_counts env s t p c sid addr h).1,
          (encrypt_cache_hit_counts env s t p c sid addr h).2, ?_⟩
  intro kec hk
  obtain ⟨entry, he⟩ := encrypt_ok_sid env s t p c kec hk
  rw [getOrCreate_cache_hit env s t p sid addr h] at he
  revert he
  split
  · intro he
    simp only [Except.ok.injEq, Prod.mk.injEq] at he
    exact he.1.symm
  · intro he; simp at he

/-- Witness for C5: a second call for `("orders", 3)` against the cached
state makes no `CreateChannel` call, no handshake, and returns session id
`42`. -/
theorem C5_witness :
    alookup (("orders" : String), (3 : Int)) s_cached.topic_encryptor_map
      = some (42, "enc_msg_A") ∧
    countCreate (encrypt_content_for env_ok s_cached "orders" 3 [104]).2.2 = 0 ∧
    countHandshake (encrypt_content_for env_ok s_cached "orders" 3 [104]).2.2 = 0 ∧
    ∀ kec, (encrypt_content_for env_ok s_cached "orders" 3 [104]).1 = .ok kec →
      kec.secure_channel_id = 42 :=
  ⟨by decide,
   C5_cache_hit_reuses_session env_ok s_cached "orders" 3 [104] 42 "enc_msg_A"
     (by decide)⟩

/-! ### C6 -/

/-- C6: `decrypt_content_for` with a session id absent from
`id_encryptor_map` fails with the "missing secure channel" error, sends no
request to any channel (empty event trace) and leaves the state unchanged. -/
theorem C6_missing_secure_channel (env : Env) (s : Inner)
    (id : UniqueSecureChannelId) (c : List Nat)
    (h : alookup id s.id_encryptor_map = none) :
    decrypt_content_for env s id c = (.error .missingSecureChannel, s, []) := by
  unfold decrypt_content_for get_secure_channel_for
  rw [h]

/-- Witness for C6: session id `7` was never handshaken into the fresh
controller. -/
theorem C6_witness :
    alookup 7 (initial_state ["proj"]).id_encryptor_map = none ∧
    decrypt_content_for env_ok (initial_state ["proj"]) 7 [104]
      = (.error .missingSecureChannel, initial_state ["proj"], []) :=
  ⟨rfl, C6_missing_secure_channel env_ok (initial_state ["proj"]) 7 [104] rfl⟩

/-! ### C7 -/

/-- C7: when `id_encryptor_map` maps the session id to `addr` but every
registry entry at `addr` is an initiator (in particular when there is none),
decryption fails with "secure channel no longer exists"; and a successful
lookup only ever returns a non-initiator entry at `addr`, so an
initiator-role entry at the same address is never used for decryption. -/
theorem C7_gone_and_never_initiator (env : Env) (s : Inner)
    (id : UniqueSecureChannelId) (c : List Nat) (addr : Address)
    (h : alookup id s.id_encryptor_map = some addr) :
    ((∀ entry ∈ env.get_channel_list,
        entry.encryptor_messaging_address = addr → entry.is_initiator = true) →
      decrypt_content_for env s id c = (.error .secureChannelGone, s, [])) ∧
    (∀ entry, get_secure_channel_for env s id = .ok entry →
      entry.is_initiator = false ∧ entry.encryptor_messaging_address = addr) := by
  constructor
  · intro hall
    have hfind : env.get_channel_list.find?
        (fun entry =>
          entry.encryptor_messaging_address == addr && !entry.is_initiator)
        = none := by
      rw [List.find?_eq_none]
      intro x hx
      simp only [Bool.and_eq_true, beq_iff_eq, Bool.not_eq_true',
        not_and]
      intro h1 h2
      rw [hall x hx h1] at h2
      simp at h2
    have hgs : get_secure_channel_for env s id = .error .secureChannelGone := by
      unfold get_secure_channel_for
      rw [h]
      dsimp only
      rw [hfind]
    unfold decrypt_content_for
    rw [hgs]
  · intro entry hok
    unfold get_secure_channel_for at hok
    rw [h] at hok
    dsimp only at hok
    revert hok
    split
    · rename_i e heq
      intro hok
      injection hok with h2
      subst h2
      have hp := List.find?_some heq
      simp only [Bool.and_eq_true, beq_iff_eq, Bool.not_eq_true'] at hp
      exact ⟨hp.2, hp.1⟩
    · intro hok; simp at hok

/-- An initiator-role registry entry at address `enc_msg_B`. -/
def entryB_init : SecureChannelRegistryEntry :=
  { encryptor_messaging_address := "enc_msg_B"
    encryptor_api_address := "enc_api_B"
    decryptor_api_address := "dec_api_B"
    is_initiator := true }

/-- An environment whose registry lists only the initiator-role entry at
`enc_msg_B`. -/
def env_initiator_only : Env := { env_ok with get_channel_list := [entryB_init] }

/-- A controller state whose `id_encryptor_map` maps session id `5` to
`enc_msg_B`. -/
def s_id_mapped : Inner :=
  { initial_state ["proj"] with id_encryptor_map := [(5, "enc_msg_B")] }

/-- Witness for C7: session id `5` maps to `enc_msg_B`, where the registry
only has an initiator-role entry, so decryption reports the channel gone. -/
theorem C7_witness :
    alookup 5 s_id_mapped.id_encryptor_map = some "enc_msg_B" ∧
    decrypt_content_for env_initiator_only s_id_mapped 5 [104]
      = (.error .secureChannelGone, s_id_mapped, []) :=
  ⟨by decide,
   (C7_gone_and_never_initiator env_initiator_only s_id_mapped 5 [104]
      "enc_msg_B" (by decide)).1 (by decide)⟩

/-! ### C10 -/

/-- C10: when the key is cached but the registry no longer has a channel for
the cached encryptor address, `encrypt_content_for` fails with the
"secure channel down" error, performs no external call, and leaves the state
— in particular the cached entry — unchanged; hence a second call with the
same key fails in exactly the same way (no lazy re-creation). -/
theorem C10_dead_cached_channel (env : Env) (s : Inner) (t : String) (p : Int)
    (c : List Nat) (sid : UniqueSecureChannelId) (addr : Address)
    (h : alookup (t, p) s.topic_encryptor_map = some (sid, addr))
    (hdead : env.get_channel_by_encryptor_address addr = none) :
    encrypt_content_for env s t p c = (.error .channelDown, s, []) ∧
    encrypt_content_for env (encrypt_content_for env s t p c).2.1 t p c
      = (.error .channelDown, s, []) := by
  have hg : get_or_create_secure_channel_for env s t p
      = (.error .channelDown, s, []) := by
    rw [getOrCreate_cache_hit env s t p sid addr h, hdead]
  have h1 : encrypt_content_for env s t p c = (.error .channelDown, s, []) := by
    unfold encrypt_content_for
    rw [hg]
  exact ⟨h1, by rw [h1]; exact h1⟩

/-- Witness for C10: the cached channel for `("orders", 3)` has vanished from
the registry; both the first and the second call fail with "secure channel
down" and the cache entry survives. -/
theorem C10_witness :
    alookup (("orders" : String), (3 : Int)) s_cached.topic_encryptor_map
      = some (42, "enc_msg_A") ∧
    env_registry_empty.get_channel_by_encryptor_address "enc_msg_A" = none ∧
    encrypt_content_for env_registry_empty s_cached "orders" 3 [104]
      = (.error .channelDown, s_cached, []) ∧
    encrypt_content_for env_registry_empty
        (encrypt_content_for env_registry_empty s_cached "orders" 3 [104]).2.1
        "orders" 3 [104]
      = (.error .channelDown, s_cached, []) :=
  ⟨by decide, rfl,
   C10_dead_cached_channel env_registry_empty s_cached "orders" 3 [104] 42
     "enc_msg_A" (by decide) rfl⟩

/-! ### Lemmas about `start_forwarders_for` -/

theorem countForwarder_nil (k : TopicPartition) : countForwarder [] k = 0 := rfl

theorem countForwarder_cons_forwarder (key k : TopicPartition) (a : String)
    (evs : List Event) :
    countForwarder (.forwarder key a :: evs) k
      = (if key = k then 1 else 0) + countForwarder evs k := by
  by_cases h : key = k
  · simp [countForwarder, List.filter_cons, h, Nat.add_comm]
  · simp [countForwarder, List.filter_cons, h]

theorem countForwarder_cons_other (e : Event) (k : TopicPartition)
    (evs : List Event) (h : ∀ key a, e ≠ .forwarder key a) :
    countForwarder (e :: evs) k = countForwarder evs k := by
  cases e <;> simp [countForwarder, List.filter_cons]
  rename_i key a
  exact absurd rfl (h key a)

/-- The call `start_forwarders_for` touches only `topic_forwarder_set`. -/
theorem startForwarders_frames (env : Env) (t : String) :
    ∀ (ps : List Int) (s : Inner),
      ((start_forwarders_for env s t ps).2.1).id_encryptor_map
          = s.id_encryptor_map ∧
      ((start_forwarders_for env s t ps).2.1).topic_encryptor_map
          = s.topic_encryptor_map ∧
      ((start_forwarders_for env s t ps).2.1).project_route
          = s.project_route := by
  intro ps
  induction ps with
  | nil => intro s; exact ⟨rfl, rfl, rfl⟩
  | cons p rest ih =>
      intro s
      unfold start_forwarders_for
      dsimp only
      split
      · exact ih s
      · split
        · exact ⟨rfl, rfl, rfl⟩
        · have h2 := ih
            { s with topic_forwarder_set := (t, p) :: s.topic_forwarder_set }
          rcases hr : start_forwarders_for env
            { s with topic_forwarder_set := (t, p) :: s.topic_forwarder_set }
            t rest with ⟨r, s2, evs⟩
          rw [hr] at h2
          exact h2

/-- Keys already in `topic_forwarder_set` stay there (there is no rollback
and no removal). -/
theorem startForwarders_set_mono (env : Env) (t : String) :
    ∀ (ps : List Int) (s : Inner) (k : TopicPartition),
      k ∈ s.topic_forwarder_set →
      k ∈ ((start_forwarders_for env s t ps).2.1).topic_forwarder_set := by
  intro ps
  induction ps with
  | nil => intro s k hk; exact hk
  | cons p rest ih =>
      intro s k hk
      unfold start_forwarders_for
      dsimp only
      split
      · exact ih s k hk
      · split
        · exact hk
        · have h2 := ih
            { s with topic_forwarder_set := (t, p) :: s.topic_forwarder_set }
            k (List.mem_cons_of_mem _ hk)
          rcases hr : start_forwarders_for env
            { s with topic_forwarder_set := (t, p) :: s.topic_forwarder_set }
            t rest with ⟨r, s2, evs⟩
          rw [hr] at h2
          exact h2

/-- Keys already in `topic_forwarder_set` are silently skipped: no
`create_forwarder` call is made for them. -/
theorem startForwarders_cached_no_event (env : Env) (t : String) :
    ∀ (ps : List Int) (s : Inner) (k : TopicPartition),
      k ∈ s.topic_forwarder_set →
      countForwarder (start_forwarders_for env s t ps).2.2 k = 0 := by
  intro ps
  induction ps with
  | nil => intro s k _; rfl
  | cons p rest ih =>
      intro s k hk
      unfold start_forwarders_for
      dsimp only
      split
      · exact ih s k hk
      · rename_i hmem
        split
        · have hne : (t, p) ≠ k := fun he => hmem (he ▸ hk)
          rw [countForwarder_cons_forwarder, if_neg hne, countForwarder_nil]
        · have h2 := ih
            { s with topic_forwarder_set := (t, p) :: s.topic_forwarder_set }
            k (List.mem_cons_of_mem _ hk)
          rcases hr : start_forwarders_for env
            { s with topic_forwarder_set := (t, p) :: s.topic_forwarder_set }
            t rest with ⟨r, s2, evs⟩
          rw [hr] at h2
          have hne : (t, p) ≠ k := fun he => hmem (he ▸ hk)
          show countForwarder
            (Event.forwarder (t, p) (forwarder_alias t p) :: (r, s2, evs).2.2) k = 0
          rw [countForwarder_cons_forwarder, if_neg hne]
          simpa using h2

/-- A key is recorded in `topic_forwarder_set` only when it was already there
or its `create_forwarder` call succeeded. -/
theorem startForwarders_recorded_after_success (env : Env) (t : String) :
    ∀ (ps : List Int) (s : Inner) (k : TopicPartition),
      k ∈ ((start_forwarders_for env s t ps).2.1).topic_forwarder_set →
      k ∈ s.topic_forwarder_set ∨
        (k.1 = t ∧ k.2 ∈ ps ∧
          env.create_forwarder (forwarder_alias t k.2) = .ok ()) := by
  intro ps
  induction ps with
  | nil => intro s k hk; exact Or.inl hk
  | cons p rest ih =>
      intro s k hk
      rw [start_forwarders_for] at hk
      dsimp only at hk
      revert hk
      split
      · intro hk
        rcases ih s k hk with h | ⟨h1, h2, h3⟩
        · exact Or.inl h
        · exact Or.inr ⟨h1, List.mem_cons_of_mem _ h2, h3⟩
      · split
        · intro hk; exact Or.inl hk
        · rename_i u hcf
          rcases hr : start_forwarders_for env
            { s with topic_forwarder_set := (t, p) :: s.topic_forwarder_set }
            t rest with ⟨r, s2, evs⟩
          intro hk
          have h2 := ih
            { s with topic_forwarder_set := (t, p) :: s.topic_forwarder_set } k
          rw [hr] at h2
          rcases h2 hk with h | ⟨h1, h3, h4⟩
          · rcases List.mem_cons.mp h with he | h
            · subst he
              refine Or.inr ⟨rfl, List.mem_cons_self _ _, ?_⟩
              cases u
              exact hcf
            · exact Or.inl h
          · exact Or.inr ⟨h1, List.mem_cons_of_mem _ h3, h4⟩

/-- When every registration in the call succeeds, the call returns `Ok`. -/
theorem startForwarders_all_ok_result (env : Env) (t : String) :
    ∀ (ps : List Int) (s : Inner),
      (∀ r ∈ ps, env.create_forwarder (forwarder_alias t r) = .ok ()) →
      (start_forwarders_for env s t ps).1 = .ok () := by
  intro ps
  induction ps with
  | nil => intro s _; rfl
  | cons p rest ih =>
      intro s hall
      unfold start_forwarders_for
      dsimp only
      split
      · exact ih s fun r hr => hall r (List.mem_cons_of_mem _ hr)
      · rw [hall p (List.mem_cons_self p rest)]
        dsimp only
        have h2 := ih
          { s with topic_forwarder_set := (t, p) :: s.topic_forwarder_set }
          (fun r hr => hall r (List.mem_cons_of_mem _ hr))
        rcases hr : start_forwarders_for env
          { s with topic_forwarder_set := (t, p) :: s.topic_forwarder_set }
          t rest with ⟨r, s2, evs⟩
        rw [hr] at h2
        exact h2

/-- When every registration in the call succeeds, every partition of the
call ends up recorded in `topic_forwarder_set`. -/
theorem startForwarders_registers (env : Env) (t : String) :
    ∀ (ps : List Int) (s : Inner) (q : Int), q ∈ ps →
      (∀ r ∈ ps, env.create_forwarder (forwarder_alias t r) = .ok ()) →
      (t, q) ∈ ((start_forwarders_for env s t ps).2.1).topic_forwarder_set := by
  intro ps
  induction ps with
  | nil => intro s q hq; exact absurd hq (List.not_mem_nil q)
  | cons p rest ih =>
      intro s q hq hall
      have hrest : ∀ r ∈ rest, env.create_forwarder (forwarder_alias t r) = .ok () :=
        fun r hr => hall r (List.mem_cons_of_mem _ hr)
      unfold start_forwarders_for
      dsimp only
      split
      · rename_i hmem
        rcases List.mem_cons.mp hq with he | hq'
        · exact startForwarders_set_mono env t rest s (t, q)
            (by rw [he]; exact hmem)
        · exact ih s q hq' hrest
      · rw [hall p (List.mem_cons_self p rest)]
        dsimp only
        rcases hr : start_forwarders_for env
          { s with topic_forwarder_set := (t, p) :: s.topic_forwarder_set }
          t rest with ⟨r, s2, evs⟩
        rcases List.mem_cons.mp hq with he | hq'
        · have h2 := startForwarders_set_mono env t rest
            { s with topic_forwarder_set := (t, p) :: s.topic_forwarder_set }
            (t, q) (by rw [he]; exact List.mem_cons_self _ _)
          rw [hr] at h2
          exact h2
        · have h2 := ih
            { s with topic_forwarder_set := (t, p) :: s.topic_forwarder_set }
            q hq' hrest
          rw [hr] at h2
          exact h2

/-- A partition not named in the call gets no `create_forwarder` call at
all. -/
theorem startForwarders_count_zero_not_mem (env : Env) (t : String) :
    ∀ (ps : List Int) (s : Inner) (q : Int), q ∉ ps →
      countForwarder (start_forwarders_for env s t ps).2.2 (t, q) = 0 := by
  intro ps
  induction ps with
  | nil => intro s q _; rfl
  | cons p rest ih =>
      intro s q hq
      have hqp : q ≠ p := fun he => hq (he ▸ List.mem_cons_self p rest)
      have hqr : q ∉ rest := fun h => hq (List.mem_cons_of_mem _ h)
      have hne : (t, p) ≠ (t, q) := fun he =>
        hqp (congrArg Prod.snd he).symm
      unfold start_forwarders_for
      dsimp only
      split
      · exact ih s q hqr
      · split
        · rw [countForwarder_cons_forwarder, if_neg hne, countForwarder_nil]
        · rcases hr : start_forwarders_for env
            { s with topic_forwarder_set := (t, p) :: s.topic_forwarder_set }
            t rest with ⟨r, s2, evs⟩
          have h2 := ih
            { s with topic_forwarder_set := (t, p) :: s.topic_forwarder_set }
            q hqr
          rw [hr] at h2
          show countForwarder
            (Event.forwarder (t, p) (forwarder_alias t p) :: (r, s2, evs).2.2)
            (t, q) = 0
          rw [countForwarder_cons_forwarder, if_neg hne]
          simpa using h2

/-- When every registration in the call succeeds, a partition of the call
that was not yet recorded gets exactly one `create_forwarder` call. -/
theorem startForwarders_count_one (env : Env) (t : String) :
    ∀ (ps : List Int) (s : Inner) (q : Int),
      (t, q) ∉ s.topic_forwarder_set → q ∈ ps →
      (∀ r ∈ ps, env.create_forwarder (forwarder_alias t r) = .ok ()) →
      countForwarder (start_forwarders_for env s t ps).2.2 (t, q) = 1 := by
  intro ps
  induction ps with
  | nil => intro s q _ hq; exact absurd hq (List.not_mem_nil q)
  | cons p rest ih =>
      intro s q hnot hq hall
      have hrest : ∀ r ∈ rest, env.create_forwarder (forwarder_alias t r) = .ok () :=
        fun r hr => hall r (List.mem_cons_of_mem _ hr)
      unfold start_forwarders_for
      dsimp only
      split
      · rename_i hmem
        have hqp : q ≠ p := fun he => hnot (he ▸ hmem)
        rcases List.mem_cons.mp hq with he | hq'
        · exact absurd he hqp
        · exact ih s q hnot hq' hrest
      · rename_i hmem
        rw [hall p (List.mem_cons_self p rest)]
        dsimp only
        rcases hr : start_forwarders_for env
          { s with topic_forwarder_set := (t, p) :: s.topic_forwarder_set }
          t rest with ⟨r, s2, evs⟩
        by_cases hqp : q = p
        · subst hqp
          have h2 := startForwarders_cached_no_event env t rest
            { s with topic_forwarder_set := (t, q) :: s.topic_forwarder_set }
            (t, q) (List.mem_cons_self _ _)
          rw [hr] at h2
          show countForwarder
            (Event.forwarder (t, q) (forwarder_alias t q) :: (r, s2, evs).2.2)
            (t, q) = 1
          rw [countForwarder_cons_forwarder, if_pos rfl]
          simpa using h2
        · have hnot' : (t, q) ∉
              ({ s with topic_forwarder_set := (t, p) :: s.topic_forwarder_set }
                : Inner).topic_forwarder_set := by
            intro h
            rcases List.mem_cons.mp h with he | h'
            · exact hqp (congrArg Prod.snd he)
            · exact hnot h'
          have hq' : q ∈ rest := by
            rcases List.mem_cons.mp hq with he | h'
            · exact absurd he hqp
            · exact h'
          have h2 := ih
            { s with topic_forwarder_set := (t, p) :: s.topic_forwarder_set }
            q hnot' hq' hrest
          rw [hr] at h2
          have hne : (t, p) ≠ (t, q) := fun he =>
            hqp (congrArg Prod.snd he).symm
          show countForwarder
            (Event.forwarder (t, p) (forwarder_alias t p) :: (r, s2, evs).2.2)
            (t, q) = 1
          rw [countForwarder_cons_forwarder, if_neg hne]
          simpa using h2

/-- A failed registration aborts the remaining partitions of the call:
the error propagates, partitions registered earlier in the call stay
registered, the failing partition is not recorded, and no partition after
the failing one is attempted. -/
theorem startForwarders_fail_abort (env : Env) (t : String) (p : Int) (e : Err)
    (hfail : env.create_forwarder (forwarder_alias t p) = .error e) :
    ∀ (qs1 : List Int) (s : Inner) (qs2 : List Int),
      (∀ q ∈ qs1, env.create_forwarder (forwarder_alias t q) = .ok ()) →
      (t, p) ∉ s.topic_forwarder_set → p ∉ qs1 →
      (start_forwarders_for env s t (qs1 ++ p :: qs2)).1 = .error e ∧
      (∀ q ∈ qs1, (t, q) ∈
        ((start_forwarders_for env s t (qs1 ++ p :: qs2)).2.1).topic_forwarder_set) ∧
      (t, p) ∉
        ((start_forwarders_for env s t (qs1 ++ p :: qs2)).2.1).topic_forwarder_set ∧
      (∀ q : Int, q ∉ qs1 → q ≠ p →
        countForwarder (start_forwarders_for env s t (qs1 ++ p :: qs2)).2.2 (t, q)
          = 0) := by
  intro qs1
  induction qs1 with
  | nil =>
      intro s qs2 _ hnot _
      rw [List.nil_append]
      unfold start_forwarders_for
      dsimp only
      rw [if_neg hnot, hfail]
      refine ⟨rfl, fun q hq => absurd hq (List.not_mem_nil q), hnot, fun q _ hqp => ?_⟩
      have hne : (t, p) ≠ (t, q) := fun he =>
        hqp (congrArg Prod.snd he).symm
      rw [countForwarder_cons_forwarder, if_neg hne, countForwarder_nil]
  | cons a qs1' ih =>
      intro s qs2 hall hnot hp1
      have hok : env.create_forwarder (forwarder_alias t a) = .ok () :=
        hall a (List.mem_cons_self a qs1')
      have hall' : ∀ q ∈ qs1', env.create_forwarder (forwarder_alias t q) = .ok () :=
        fun q hq => hall q (List.mem_cons_of_mem _ hq)
      have hpa : p ≠ a := fun he => hp1 (he ▸ List.mem_cons_self a qs1')
      have hp1' : p ∉ qs1' := fun h => hp1 (List.mem_cons_of_mem _ h)
      rw [List.cons_append]
      unfold start_forwarders_for
      dsimp only
      split
      · rename_i hmem
        obtain ⟨h1, h2, h3, h4⟩ := ih s qs2 hall' hnot hp1'
        refine ⟨h1, fun q hq => ?_, h3, fun q hq hqp => ?_⟩
        · rcases List.mem_cons.mp hq with he | hq'
          · subst he
            exact startForwarders_set_mono env t (qs1' ++ p :: qs2) s (t, q) hmem
          · exact h2 q hq'
        · exact h4 q (fun h => hq (List.mem_cons_of_mem _ h)) hqp
      · rw [hok]
        dsimp only
        have hnot' : (t, p) ∉
            ({ s with topic_forwarder_set := (t, a) :: s.topic_forwarder_set }
              : Inner).topic_forwarder_set := by
          intro h
          rcases List.mem_cons.mp h with he | h'
          · exact hpa (congrArg Prod.snd he)
          · exact hnot h'
        obtain ⟨h1, h2, h3, h4⟩ := ih
          { s with topic_forwarder_set := (t, a) :: s.topic_forwarder_set }
          qs2 hall' hnot' hp1'
        rcases hr : start_forwarders_for env
          { s with topic_forwarder_set := (t, a) :: s.topic_forwarder_set }
          t (qs1' ++ p :: qs2) with ⟨r, s2, evs⟩
        rw [hr] at h1 h2 h3 h4
        refine ⟨by simpa using h1, fun q hq => ?_, by simpa using h3,
          fun q hq hqp => ?_⟩
        · rcases List.mem_cons.mp hq with he | hq'
          · subst he
            have h5 := startForwarders_set_mono env t (qs1' ++ p :: qs2)
              { s with topic_forwarder_set := (t, q) :: s.topic_forwarder_set }
              (t, q) (List.mem_cons_self _ _)
            rw [hr] at h5
            exact h5
          · exact h2 q hq'
        · have hqa : q ≠ a := fun he => hq (he ▸ List.mem_cons_self a qs1')
          have hne : (t, a) ≠ (t, q) := fun he =>
            hqa (congrArg Prod.snd he).symm
          show countForwarder
            (Event.forwarder (t, a) (forwarder_alias t a) :: (r, s2, evs).2.2)
            (t, q) = 0
          rw [countForwarder_cons_forwarder, if_neg hne]
          simpa using h4 q (fun h => hq (List.mem_cons_of_mem _ h)) hqp

/-! ### C8 -/

/-- C8: `start_forwarders_for` is idempotent per topic-partition: (i)
partitions already in `topic_forwarder_set` are silently skipped (no
`create_forwarder` call); (ii) a partition is recorded only when it was
already recorded or its `create_forwarder` call succeeded; (iii) no
partition is ever un-recorded; (iv) two calls with overlapping partition
lists, all of whose registrations succeed, perform exactly one
`create_forwarder` call per partition overall; (v) a registration failure
aborts the call with the error, keeps the partitions registered earlier in
the same call, and never reaches the remaining partitions. -/
theorem C8_start_forwarders_idempotent (env1 env2 : Env) (s : Inner)
    (t : String) (ps1 ps2 : List Int) :
    (∀ k ∈ s.topic_forwarder_set,
      countForwarder (start_forwarders_for env1 s t ps1).2.2 k = 0) ∧
    (∀ k ∈ ((start_forwarders_for env1 s t ps1).2.1).topic_forwarder_set,
      k ∈ s.topic_forwarder_set ∨
        (k.1 = t ∧ k.2 ∈ ps1 ∧
          env1.create_forwarder (forwarder_alias t k.2) = .ok ())) ∧
    (∀ k ∈ s.topic_forwarder_set,
      k ∈ ((start_forwarders_for env1 s t ps1).2.1).topic_forwarder_set) ∧
    ((∀ r ∈ ps1, env1.create_forwarder (forwarder_alias t r) = .ok ()) →
     (∀ r ∈ ps2, env2.create_forwarder (forwarder_alias t r) = .ok ()) →
     ∀ q : Int, (t, q) ∉ s.topic_forwarder_set → (q ∈ ps1 ∨ q ∈ ps2) →
       countForwarder
         ((start_forwarders_for env1 s t ps1).2.2 ++
          (start_forwarders_for env2
            (start_forwarders_for env1 s t ps1).2.1 t ps2).2.2) (t, q) = 1) ∧
    (∀ (p : Int) (e : Err) (qs1 qs2 : List Int),
      env1.create_forwarder (forwarder_alias t p) = .error e →
      (∀ q ∈ qs1, env1.create_forwarder (forwarder_alias t q) = .ok ()) →
      (t, p) ∉ s.topic_forwarder_set → p ∉ qs1 →
      (start_forwarders_for env1 s t (qs1 ++ p :: qs2)).1 = .error e ∧
      (∀ q ∈ qs1, (t, q) ∈
        ((start_forwarders_for env1 s t
          (qs1 ++ p :: qs2)).2.1).topic_forwarder_set) ∧
      (∀ q : Int, q ∉ qs1 → q ≠ p →
        countForwarder
          (start_forwarders_for env1 s t (qs1 ++ p :: qs2)).2.2 (t, q) = 0)) := by
  refine ⟨fun k hk => startForwarders_cached_no_event env1 t ps1 s k hk,
    fun k hk => startForwarders_recorded_after_success env1 t ps1 s k hk,
    fun k hk => startForwarders_set_mono env1 t ps1 s k hk, ?_, ?_⟩
  · intro hall1 hall2 q hnot hq
    rw [countForwarder_append]
    by_cases h1 : q ∈ ps1
    · have hc1 := startForwarders_count_one env1 t ps1 s q hnot h1 hall1
      have hmem := startForwarders_registers env1 t ps1 s q h1 hall1
      have hc2 := startForwarders_cached_no_event env2 t ps2
        (start_forwarders_for env1 s t ps1).2.1 (t, q) hmem
      rw [hc1, hc2]
    · have h2 : q ∈ ps2 := hq.resolve_left h1
      have hc1 := startForwarders_count_zero_not_mem env1 t ps1 s q h1
      have hnot1 : (t, q) ∉
          ((start_forwarders_for env1 s t ps1).2.1).topic_forwarder_set := by
        intro hmem
        rcases startForwarders_recorded_after_success env1 t ps1 s (t, q) hmem
          with h | ⟨_, hb, _⟩
        · exact hnot h
        · exact h1 hb
      have hc2 := startForwarders_count_one env2 t ps2
        (start_forwarders_for env1 s t ps1).2.1 q hnot1 h2 hall2
      rw [hc1, hc2]
  · intro p e qs1 qs2 hfail hall hnot hp1
    obtain ⟨h1, h2, _, h4⟩ :=
      startForwarders_fail_abort env1 t p e hfail qs1 s qs2 hall hnot hp1
    exact ⟨h1, h2, h4⟩

/-- Witness for C8: two overlapping calls (`[1, 2]` then `[2, 3]`) for topic
`"orders"` against an all-success environment register partition `2` exactly
once. -/
theorem C8_witness :
    countForwarder
      ((start_forwarders_for env_ok (initial_state ["proj"]) "orders"
          [1, 2]).2.2 ++
       (start_forwarders_for env_ok
          (start_forwarders_for env_ok (initial_state ["proj"]) "orders"
            [1, 2]).2.1
          "orders" [2, 3]).2.2) ("orders", 2) = 1 :=
  (C8_start_forwarders_idempotent env_ok env_ok (initial_state ["proj"])
      "orders" [1, 2] [2, 3]).2.2.2.1
    (fun r _ => rfl) (fun r _ => rfl) 2 (List.not_mem_nil _)
    (Or.inl (by decide))

/-! ### Lemmas about `decrypt_content_for` and `change_route` -/

/-- The call `decrypt_content_for` never modifies the controller state. -/
theorem decrypt_state_eq (env : Env) (s : Inner) (id : UniqueSecureChannelId)
    (c : List Nat) : (decrypt_content_for env s id c).2.1 = s := by
  unfold decrypt_content_for
  repeat' split
  all_goals rfl

/-- The pre-creation phase of `change_route` never touches
`id_encryptor_map`, `topic_forwarder_set` or the route. -/
theorem recreate_frames (env : Env) :
    ∀ (keys : List TopicPartition) (s : Inner),
      ((change_route_recreate env s keys).1).id_encryptor_map
          = s.id_encryptor_map ∧
      ((change_route_recreate env s keys).1).topic_forwarder_set
          = s.topic_forwarder_set ∧
      ((change_route_recreate env s keys).1).project_route
          = s.project_route := by
  intro keys
  induction keys with
  | nil => intro s; exact ⟨rfl, rfl, rfl⟩
  | cons k rest ih =>
      intro s
      unfold change_route_recreate
      rcases hg : get_or_create_secure_channel_for env s k.1 k.2 with ⟨r, s1, evs⟩
      have h1 := getOrCreate_id_map_eq env s k.1 k.2
      have h2 := getOrCreate_forwarder_set_eq env s k.1 k.2
      have h3 := getOrCreate_route_eq env s k.1 k.2
      rw [hg] at h1 h2 h3
      dsimp only at h1 h2 h3
      dsimp only
      have h4 := ih s1
      rcases hr : change_route_recreate env s1 rest with ⟨s2, evs2⟩
      rw [hr] at h4
      dsimp only at h4
      exact ⟨h4.1.trans h1, h4.2.1.trans h2, h4.2.2.trans h3⟩

/-- The forwarder loop of `change_route` succeeds when every
re-registration succeeds. -/
theorem change_route_forwarders_all_ok (env : Env) :
    ∀ l : List TopicPartition,
      (∀ k ∈ l, env.create_forwarder (forwarder_alias k.1 k.2) = .ok ()) →
      (change_route_forwarders env l).1 = .ok () := by
  intro l
  induction l with
  | nil => intro _; rfl
  | cons k rest ih =>
      intro hall
      unfold change_route_forwarders
      dsimp only
      rw [hall k (List.mem_cons_self k rest)]
      dsimp only
      rcases hr : change_route_forwarders env rest with ⟨r, evs⟩
      have h2 := ih fun k' hk' => hall k' (List.mem_cons_of_mem _ hk')
      rw [hr] at h2
      exact h2

/-- The state at the end of the locked phase of `change_route`: route
replaced, `topic_encryptor_map` cleared, everything else untouched; the keys
scheduled for pre-creation are exactly the previously cached keys. -/
theorem change_route_locked_state (env : Env) (s : Inner) (new_route : Route) :
    (change_route_locked env s new_route).2.1
      = { s with project_route := new_route, topic_encryptor_map := [] } ∧
    (change_route_locked env s new_route).2.2.2
      = s.topic_encryptor_map.map (·.1) := by
  unfold change_route_locked
  dsimp only
  split <;> exact ⟨rfl, rfl⟩

/-- The call `change_route` returns exactly what its forwarder loop returns. -/
theorem change_route_locked_result (env : Env) (s : Inner) (new_route : Route) :
    (change_route_locked env s new_route).1
      = (change_route_forwarders env s.topic_forwarder_set).1 := by
  unfold change_route_locked
  dsimp only
  split
  · rename_i e fevs heq
    rw [heq]
  · rename_i u fevs heq
    rw [heq]

/-- After `change_route`, the route is the new route and `id_encryptor_map`
and `topic_forwarder_set` are exactly what they were. -/
theorem change_route_state_frames (env : Env) (s : Inner) (new_route : Route) :
    ((change_route env s new_route).2.1).id_encryptor_map
        = s.id_encryptor_map ∧
    ((change_route env s new_route).2.1).topic_forwarder_set
        = s.topic_forwarder_set ∧
    ((change_route env s new_route).2.1).project_route = new_route := by
  unfold change_route
  split
  · rename_i e s2 evs keys heq
    have h := (change_route_locked_state env s new_route).1
    rw [heq] at h
    have hs2 : s2 = { s with project_route := new_route, topic_encryptor_map := [] } := h
    rw [hs2]
    exact ⟨rfl, rfl, rfl⟩
  · rename_i u s2 evs keys heq
    have h := (change_route_locked_state env s new_route).1
    rw [heq] at h
    have hs2 : s2 = { s with project_route := new_route, topic_encryptor_map := [] } := h
    rcases hr : change_route_recreate env s2 keys with ⟨s3, evs'⟩
    have h4 := recreate_frames env keys s2
    rw [hr] at h4
    dsimp only
    rw [h4.1, h4.2.1, h4.2.2, hs2]
    exact ⟨rfl, rfl, rfl⟩

theorem alookup_isSome_cons {α β : Type} [DecidableEq α] (k k' : α) (v : β)
    (l : List (α × β)) (h : (alookup k l).isSome) :
    (alookup k ((k', v) :: l)).isSome := by
  by_cases he : k' = k
  · simp [alookup, he]
  · simpa [alookup, he] using h

/-- No operation of the controller (nor the handshake listener) ever removes
an entry from `id_encryptor_map`. -/
theorem step_id_map_monotone (s' : Inner) (op : Op)
    (id : UniqueSecureChannelId)
    (h : (alookup id s'.id_encryptor_map).isSome) :
    (alookup id ((step s' op).id_encryptor_map)).isSome := by
  cases op with
  | opEncrypt env t p c =>
      simp only [step]
      rw [encrypt_state_eq, getOrCreate_id_map_eq]
      exact h
  | opDecrypt env id' c =>
      simp only [step]
      rw [decrypt_state_eq]
      exact h
  | opStartForwarders env t ps =>
      simp only [step]
      rw [(startForwarders_frames env t ps s').1]
      exact h
  | opChangeRoute env r =>
      simp only [step]
      rw [(change_route_state_frames env s' r).1]
      exact h
  | opAddMapping id' addr =>
      simp only [step, add_mapping]
      exact alookup_isSome_cons id id' addr _ h

/-! ### C1 -/

/-- A controller state with a cached channel and a registered forwarder. -/
def s_cached_fwd : Inner :=
  { id_encryptor_map := []
    topic_encryptor_map := [(("orders", 3), (42, "enc_msg_A"))]
    topic_forwarder_set := [("orders", 3)]
    project_route := ["proj"] }

/-- Counterexample to C1 as stated: with one registered forwarder whose
re-registration fails, `change_route` returns that error instead of
swallowing it. -/
theorem C1_counterexample :
    (change_route env_forwarder_fails s_cached_fwd ["proj2"]).1
      = .error (.external "forwarder failed") := rfl

/-- C1 (amended): `change_route` cannot fail because of closing old
channels or pre-creating channels — those failures are swallowed and only
logged, and the method degrades to lazy re-creation — but a forwarder
re-registration failure does propagate; whenever every forwarder
re-registration succeeds, `change_route` returns `Ok` no matter how the
channel closes and pre-creations turn out. -/
theorem C1_best_effort_except_forwarders (env : Env) (s : Inner)
    (new_route : Route)
    (hfwd : ∀ k ∈ s.topic_forwarder_set,
      env.create_forwarder (forwarder_alias k.1 k.2) = .ok ()) :
    (change_route env s new_route).1 = .ok () := by
  have hres := change_route_locked_result env s new_route
  have hok := change_route_forwarders_all_ok env s.topic_forwarder_set hfwd
  rw [hok] at hres
  unfold change_route
  split
  · rename_i e s2 evs keys heq
    rw [heq] at hres
    exact absurd hres (by simp)
  · rename_i u s2 evs keys heq
    rcases hr : change_route_recreate env s2 keys with ⟨s3, evs'⟩
    rfl

/-- Witness for the amended C1: the pre-creation of the cached channel fails
(`env_create_fails`), yet `change_route` still returns `Ok` because the
forwarder re-registration succeeds. -/
theorem C1_witness :
    (change_route env_create_fails s_cached_fwd ["proj2"]).1 = .ok () :=
  C1_best_effort_except_forwarders env_create_fails s_cached_fwd ["proj2"]
    (fun _ _ => rfl)

/-! ### C9 -/

/-- C9: `change_route` stores the new route; its locked phase clears
`topic_encryptor_map` entirely; after the whole call (including the
pre-creation phase) `id_encryptor_map` and `topic_forwarder_set` are exactly
what they were; and no operation whatsoever removes an entry from
`id_encryptor_map`. -/
theorem C9_change_route_frame (env : Env) (s : Inner) (new_route : Route) :
    ((change_route_locked env s new_route).2.1).topic_encryptor_map = [] ∧
    ((change_route env s new_route).2.1).project_route = new_route ∧
    ((change_route env s new_route).2.1).id_encryptor_map
        = s.id_encryptor_map ∧
    ((change_route env s new_route).2.1).topic_forwarder_set
        = s.topic_forwarder_set ∧
    (∀ (s' : Inner) (op : Op) (id : UniqueSecureChannelId),
      (alookup id s'.id_encryptor_map).isSome →
      (alookup id ((step s' op).id_encryptor_map)).isSome) := by
  have h := change_route_locked_state env s new_route
  have hf := change_route_state_frames env s new_route
  refine ⟨?_, hf.2.2, hf.1, hf.2.1, fun s' op id hid => step_id_map_monotone s' op id hid⟩
  rw [h.1]

/-- Witness for C9 at a concrete state, including the id-map monotonicity
conjunct applied to a concrete `add_mapping` step. -/
theorem C9_witness :
    ((change_route_locked env_ok s_cached_fwd ["proj2"]).2.1).topic_encryptor_map
        = [] ∧
    ((change_route env_ok s_cached_fwd ["proj2"]).2.1).project_route
        = ["proj2"] ∧
    ((change_route env_ok s_cached_fwd ["proj2"]).2.1).id_encryptor_map = [] ∧
    ((change_route env_ok s_cached_fwd ["proj2"]).2.1).topic_forwarder_set
        = [("orders", 3)] ∧
    (alookup 5 ((step s_id_mapped (.opAddMapping 9 "enc_msg_C")).id_encryptor_map)).isSome :=
  ⟨(C9_change_route_frame env_ok s_cached_fwd ["proj2"]).1,
   (C9_change_route_frame env_ok s_cached_fwd ["proj2"]).2.1,
   (C9_change_route_frame env_ok s_cached_fwd ["proj2"]).2.2.1,
   (C9_change_route_frame env_ok s_cached_fwd ["proj2"]).2.2.2.1,
   (C9_change_route_frame env_ok s_cached_fwd ["proj2"]).2.2.2.2
     s_id_mapped (.opAddMapping 9 "enc_msg_C") 5 (by decide)⟩

/-! ### C3 -/

/-- The state after one successful channel creation from the fresh
controller. -/
def c3_state : Inner :=
  step (initial_state ["proj"]) (.opEncrypt env_ok "orders" 3 [104])

/-- Counterexample to C3 as stated: after one successful creation the
reachable state has a `topic_encryptor_map` entry with session id `42`
while its own `id_encryptor_map` is still empty — the correspondence is NOT
established on the creating controller. -/
theorem C3_counterexample :
    Reachable c3_state ∧
    alookup (("orders" : String), (3 : Int)) c3_state.topic_encryptor_map
      = some (42, "enc_msg_A") ∧
    alookup 42 c3_state.id_encryptor_map = none :=
  ⟨⟨["proj"], [.opEncrypt env_ok "orders" 3 [104]], rfl⟩, by decide, by decide⟩

/-- C3 (amended): channel creation inserts the `topic_encryptor_map` entry
but leaves the creating controller's `id_encryptor_map` unchanged; the
`id_encryptor_map` entry for a session id is only established by the
handshake listener's `add_mapping` — in general on the peer controller that
receives the handshake announcement — after which that controller maps the
session id to the announced encryptor address, its `topic_encryptor_map`
untouched. -/
theorem C3_mapping_established_by_listener (env : Env) (s : Inner)
    (t : String) (p : Int) (id : UniqueSecureChannelId) (addr : Address) :
    ((get_or_create_secure_channel_for env s t p).2.1).id_encryptor_map
        = s.id_encryptor_map ∧
    alookup id ((add_mapping s id addr).id_encryptor_map) = some addr ∧
    (add_mapping s id addr).topic_encryptor_map = s.topic_encryptor_map :=
  ⟨getOrCreate_id_map_eq env s t p, alookup_cons_self id addr _, rfl⟩

end Kafka
